import Mathlib

/-!
Verification of the areeb-model-web tool proxy: a shallow embedding of the
security policy, file/edit/terminal/search capability handlers and the
tool-call orchestration loop, followed by theorems settling the spec claims.

Python dictionaries returned by handlers are modelled as association lists of
JSON values (`Obj`), so that statements about which keys a result carries are
directly expressible.
-/

namespace AreebModel

/-- JSON values, as produced by Python `json.loads` / consumed by `json.dumps`.
Numbers are modelled as integers (the protocol payloads relevant here carry
only integers). -/
inductive JVal where
  | str : String → JVal
  | int : Int → JVal
  | bool : Bool → JVal
  | null : JVal
  | arr : List JVal → JVal
  | obj : List (String × JVal) → JVal

/-- A Python dict with string keys, as returned by every tool handler. -/
abbrev Obj := List (String × JVal)

/-- Escape a string for JSON output (Python `json.dumps` default escaping for
the characters appearing in this development: backslash, double quote). -/
def jsonEscapeChar (c : Char) : String :=
  if c = '\\' then "\\\\"
  else if c = '"' then "\\\""
  else if c = '\n' then "\\n"
  else if c = '\t' then "\\t"
  else if c = '\r' then "\\r"
  else String.singleton c

def jsonEscape (s : String) : String :=
  s.foldl (fun acc c => acc ++ jsonEscapeChar c) ""

mutual

/-- Python `json.dumps` with its default separators `", "` and `": "`. -/
def JVal.dumps : JVal → String
  | .str s => "\"" ++ jsonEscape s ++ "\""
  | .int n => toString n
  | .bool b => if b then "true" else "false"
  | .null => "null"
  | .arr xs => "[" ++ JVal.dumpsArr xs ++ "]"
  | .obj kvs => "\x7b" ++ JVal.dumpsObj kvs ++ "\x7d"

def JVal.dumpsArr : List JVal → String
  | [] => ""
  | [x] => JVal.dumps x
  | x :: y :: xs => JVal.dumps x ++ ", " ++ JVal.dumpsArr (y :: xs)

def JVal.dumpsObj : List (String × JVal) → String
  | [] => ""
  | [(k, v)] => "\"" ++ jsonEscape k ++ "\": " ++ JVal.dumps v
  | (k, v) :: kv :: kvs =>
      "\"" ++ jsonEscape k ++ "\": " ++ JVal.dumps v ++ ", " ++ JVal.dumpsObj (kv :: kvs)

end

/-! ### `json.loads`

A fuel-indexed recursive-descent parser for the JSON fragment exchanged on
this wire (objects, arrays, strings without escape sequences, integers,
`true`/`false`/`null`).  Failure carries a message, modelling the
`json.JSONDecodeError` that Python's `json.loads` raises on malformed input. -/

def isJsonWs (c : Char) : Bool :=
  c = ' ' ∨ c = '\n' ∨ c = '\t' ∨ c = '\r'

def skipWs : List Char → List Char
  | [] => []
  | c :: cs => if isJsonWs c then skipWs cs else c :: cs

def parseStringBody : List Char → Except String (String × List Char)
  | [] => .error "Unterminated string"
  | c :: cs =>
      if c = '"' then .ok ("", cs)
      else match parseStringBody cs with
        | .ok (s, rest) => .ok (String.singleton c ++ s, rest)
        | .error e => .error e

def parseDigits : List Char → Nat → Option (Nat × List Char)
  | [], acc => some (acc, [])
  | c :: cs, acc =>
      if c.isDigit then parseDigits cs (acc * 10 + (c.toNat - 48))
      else some (acc, c :: cs)

mutual

def parseJVal : Nat → List Char → Except String (JVal × List Char)
  | 0, _ => .error "Expecting value"
  | _ + 1, [] => .error "Expecting value"
  | fuel + 1, c :: cs =>
      if isJsonWs c then parseJVal fuel cs
      else if c = '"' then
        match parseStringBody cs with
        | .ok (s, rest) => .ok (.str s, rest)
        | .error e => .error e
      else if c = '\x7b' then parseObjItems fuel (skipWs cs) true
      else if c = '[' then parseArrItems fuel (skipWs cs) true
      else if c = 't' then
        match cs with
        | 'r' :: 'u' :: 'e' :: rest => .ok (.bool true, rest)
        | _ => .error "Expecting value"
      else if c = 'f' then
        match cs with
        | 'a' :: 'l' :: 's' :: 'e' :: rest => .ok (.bool false, rest)
        | _ => .error "Expecting value"
      else if c = 'n' then
        match cs with
        | 'u' :: 'l' :: 'l' :: rest => .ok (.null, rest)
        | _ => .error "Expecting value"
      else if c = '-' then
        match parseDigits cs 0 with
        | some (n, rest) =>
            if cs.length ≠ rest.length then .ok (.int (-(n : Int)), rest)
            else .error "Expecting value"
        | none => .error "Expecting value"
      else if c.isDigit then
        match parseDigits (c :: cs) 0 with
        | some (n, rest) => .ok (.int (n : Int), rest)
        | none => .error "Expecting value"
      else .error "Expecting value"

def parseObjItems : Nat → List Char → Bool → Except String (JVal × List Char)
  | 0, _, _ => .error "Expecting property name"
  | _ + 1, [], _ => .error "Expecting property name"
  | fuel + 1, c :: cs, first =>
      if c = '\x7d' ∧ first then .ok (.obj [], cs)
      else if c = '"' then
        match parseStringBody cs with
        | .error e => .error e
        | .ok (k, rest) =>
            match skipWs rest with
            | ':' :: rest' =>
                match parseJVal fuel rest' with
                | .error e => .error e
                | .ok (v, rest'') =>
                    match skipWs rest'' with
                    | ',' :: rest''' =>
                        (match parseObjItems fuel (skipWs rest''') false with
                         | .ok (.obj kvs, r) => .ok (.obj ((k, v) :: kvs), r)
                         | .ok _ => .error "Expecting property name"
                         | .error e => .error e)
                    | '\x7d' :: rest''' => .ok (.obj [(k, v)], rest''')
                    | _ => .error "Expecting delimiter"
            | _ => .error "Expecting colon delimiter"
      else .error "Expecting property name"

def parseArrItems : Nat → List Char → Bool → Except String (JVal × List Char)
  | 0, _, _ => .error "Expecting value"
  | _ + 1, [], _ => .error "Expecting value"
  | fuel + 1, c :: cs, first =>
      if c = ']' ∧ first then .ok (.arr [], cs)
      else
        match parseJVal fuel (c :: cs) with
        | .error e => .error e
        | .ok (v, rest) =>
            match skipWs rest with
            | ',' :: rest' =>
                (match parseArrItems fuel (skipWs rest') false with
                 | .ok (.arr vs, r) => .ok (.arr (v :: vs), r)
                 | .ok _ => .error "Expecting value"
                 | .error e => .error e)
            | ']' :: rest' => .ok (.arr [v], rest')
            | _ => .error "Expecting delimiter"

end

/-- Python `json.loads`: parse a complete JSON document, rejecting trailing
garbage. -/
def json_loads (s : String) : Except String JVal :=
  match parseJVal (s.length + 1) s.data with
  | .error e => .error e
  | .ok (v, rest) =>
      if skipWs rest = [] then .ok v else .error "Extra data"

/-! ### String helpers

List-based models of the Python string operations the handlers use.  They are
written by structural recursion so that closed instances evaluate inside the
kernel. -/

/-- Python `str.split(sep)` for a single-character separator
(`"".split(c) == ['']`). -/
def splitChar (sep : Char) : List Char → List (List Char)
  | [] => [[]]
  | c :: rest =>
      match splitChar sep rest with
      | [] => [[]]
      | g :: gs => if c = sep then [] :: g :: gs else (c :: g) :: gs

/-- Python `content.split('\n')`. -/
def splitNl (s : String) : List String :=
  (splitChar '\n' s.data).map (fun l => String.mk l)

/-- Python `str.lower()` (ASCII range, which is all this system feeds it). -/
def sLower (s : String) : String := String.mk (s.data.map Char.toLower)

/-- Python `str.strip()` with its default whitespace set. -/
def sStrip (s : String) : String :=
  String.mk (((s.data.dropWhile Char.isWhitespace).reverse.dropWhile Char.isWhitespace).reverse)

/-- `needle` occurs as a contiguous run inside `hay`. -/
def listInfix [BEq α] (needle : List α) : List α → Bool
  | [] => needle.isEmpty
  | c :: tl => needle.isPrefixOf (c :: tl) || listInfix needle tl

/-- Python `needle in hay` substring test. -/
def sContains (hay needle : String) : Bool := listInfix needle.data hay.data

/-- Python `hay.startswith(pre)`. -/
def sStarts (hay pre : String) : Bool := pre.data.isPrefixOf hay.data

/-- Python `hay.endswith(suf)`. -/
def sEnds (hay suf : String) : Bool := suf.data.isSuffixOf hay.data

/-- Byte length of the UTF-8 encoding, Python `len(s.encode('utf-8'))`. -/
def byteLen (s : String) : Nat := s.data.foldl (fun a c => a + c.utf8Size) 0

/-- Concatenate a list of strings (Python `''.join` / `f.writelines`). -/
def sConcat (l : List String) : String := l.foldl (· ++ ·) ""

/-- Python `'\n'.join(l)`. -/
def joinNl (l : List String) : String :=
  match l with
  | [] => ""
  | x :: xs => xs.foldl (fun a s => a ++ "\n" ++ s) x

/-! ### Paths

`os.path` functions, for absolute working directories.  `os.path.abspath(p)`
is `normpath(join(cwd, p))`; `normpath` collapses duplicate separators and
resolves `.` and `..` components textually. -/

/-- Process path components as `os.path.normpath` does on an absolute path:
empty and `.` components vanish, `..` pops the previous component (and is
dropped at the root). -/
def normParts : List String → List String → List String
  | acc, [] => acc.reverse
  | acc, p :: ps =>
      if p = "" ∨ p = "." then normParts acc ps
      else if p = ".." then
        match acc with
        | [] => normParts [] ps
        | _ :: acc' => normParts acc' ps
      else normParts (p :: acc) ps

/-- `os.path.normpath` restricted to absolute paths. -/
def normpathAbs (p : String) : String :=
  match normParts [] ((splitChar '/' p.data).map (fun l => String.mk l)) with
  | [] => "/"
  | parts => "/" ++ String.intercalate "/" parts

/-- `os.path.abspath` relative to an absolute current working directory. -/
def abspath (cwd p : String) : String :=
  if sStarts p "/" then normpathAbs p else normpathAbs (cwd ++ "/" ++ p)

/-- `os.path.basename`. -/
def basename (p : String) : String :=
  match (splitChar '/' p.data).getLast? with
  | some l => String.mk l
  | none => ""

/-- `os.path.dirname`. -/
def dirname (p : String) : String :=
  let parts := splitChar '/' p.data
  match parts with
  | [] => ""
  | [_] => ""
  | _ => let ds := parts.dropLast
         if ds.all (· = []) then "/" else
           String.intercalate "/" (ds.map (fun l => String.mk l))

/-! ### Security policy (src/tools/file_operations.py, terminal_operations.py) -/

/-- The `security.*` configuration the handlers read (config_loader defaults). -/
structure SecurityConfig where
  allowed_directories : List String := []
  blocked_directories : List String := []
  allowed_commands : List String := []
  blocked_commands : List String := []
  max_file_size_mb : Nat := 10
  max_output_lines : Nat := 1000

/-- `FileOperations._is_path_allowed`: absolute-string prefix match against the
block-list first, then (when an allow-list is configured) against the
allow-list. -/
def is_path_allowed (cfg : SecurityConfig) (cwd : String) (file_path : String) :
    Bool × String :=
  match cfg.blocked_directories.find?
      (fun b => sStarts (abspath cwd file_path) (abspath cwd b)) with
  | some blocked_dir => (false, "Access denied: " ++ blocked_dir ++ " is blocked")
  | none =>
      if cfg.allowed_directories ≠ [] then
        if cfg.allowed_directories.any
            (fun a => sStarts (abspath cwd file_path) (abspath cwd a)) then
          (true, "OK")
        else
          (false, "Access denied: Path not in allowed directories")
      else (true, "OK")

/-- scanner state of `shlex.split`: between/inside a token, inside single
quotes, inside double quotes -/
inductive ShlexMode where
  | top : Option (List Char) → ShlexMode
  | single : List Char → ShlexMode
  | double : List Char → ShlexMode

/-- `shlex.split` scanning loop (accumulating the current token reversed). -/
def shlexRun : List Char → ShlexMode → List String
  | [], .top none => []
  | [], .top (some tok) => [String.mk tok.reverse]
  | [], .single tok => [String.mk tok.reverse]
  | [], .double tok => [String.mk tok.reverse]
  | c :: cs, .top cur =>
      if c.isWhitespace then
        match cur with
        | none => shlexRun cs (.top none)
        | some tok => String.mk tok.reverse :: shlexRun cs (.top none)
      else if c = '\'' then shlexRun cs (.single (cur.getD []))
      else if c = '"' then shlexRun cs (.double (cur.getD []))
      else if c = '\\' then
        match cs with
        | [] => [String.mk (cur.getD []).reverse]
        | d :: ds => shlexRun ds (.top (some (d :: cur.getD [])))
      else shlexRun cs (.top (some (c :: cur.getD [])))
  | c :: cs, .single tok =>
      if c = '\'' then shlexRun cs (.top (some tok)) else shlexRun cs (.single (c :: tok))
  | c :: cs, .double tok =>
      if c = '"' then shlexRun cs (.top (some tok))
      else if c = '\\' then
        match cs with
        | [] => [String.mk ('\\' :: tok).reverse]
        | '"' :: ds => shlexRun ds (.double ('"' :: tok))
        | '\\' :: ds => shlexRun ds (.double ('\\' :: tok))
        | d :: ds => shlexRun ds (.double (d :: '\\' :: tok))
      else shlexRun cs (.double (c :: tok))

/-- `shlex.split`, modelled for its POSIX core: whitespace-separated tokens,
single and double quotes grouping, backslash escaping. -/
def shlexSplit (s : String) : List String := shlexRun s.data (.top none)

/-- the single-quote character used inside the policy error messages -/
def squote : String := String.singleton (Char.ofNat 39)

/-- `TerminalOperations._is_command_allowed`: lowercase and strip the command,
deny on any blocked substring, then (when an allow-list is configured) require
the first shell token to be an allow-listed command name. -/
def is_command_allowed (cfg : SecurityConfig) (command : String) : Bool × String :=
  match cfg.blocked_commands.find?
      (fun blocked => sContains (sStrip (sLower command)) (sLower blocked)) with
  | some blocked => (false, "Command blocked: contains " ++ squote ++ blocked ++ squote)
  | none =>
      if cfg.allowed_commands ≠ [] then
        match shlexSplit (sStrip (sLower command)) with
        | [] => (true, "OK")
        | base_command :: _ =>
            if (cfg.allowed_commands.map sLower).contains base_command then (true, "OK")
            else (false, "Command not allowed: " ++ squote ++ base_command ++ squote)
      else (true, "OK")

/-! ### Filesystem model

Files are keyed by absolute normalized path; directories are a separate set.
Relative paths are resolved against the current working directory, as the
`os` functions do. -/

structure Fs where
  cwd : String := "/work"
  files : List (String × String) := []
  dirs : List String := []

/-- content of the file at (possibly relative) path `p`, if any -/
def Fs.file? (fs : Fs) (p : String) : Option String :=
  (fs.files.find? (fun kv => kv.1 = abspath fs.cwd p)).map (·.2)

/-- `os.path.isfile` -/
def Fs.isFile (fs : Fs) (p : String) : Bool := (fs.file? p).isSome

/-- `os.path.isdir` -/
def Fs.isDir (fs : Fs) (p : String) : Bool := fs.dirs.contains (abspath fs.cwd p)

/-- `os.path.exists` -/
def Fs.exists (fs : Fs) (p : String) : Bool := fs.isFile p || fs.isDir p

/-- write (create or overwrite) the file at `p` -/
def Fs.setFile (fs : Fs) (p : String) (content : String) : Fs :=
  let a := abspath fs.cwd p
  { fs with files := (a, content) :: fs.files.filter (fun kv => kv.1 ≠ a) }

/-- `os.makedirs(d, exist_ok=True)`: create `d` and its ancestors -/
def Fs.makedirs (fs : Fs) (d : String) : Fs :=
  { fs with dirs := abspath fs.cwd d :: fs.dirs }

/-- `mimetypes.guess_type`, for the extensions this development exercises. -/
def guessType (p : String) : Option String :=
  if sEnds p ".txt" then some "text/plain"
  else if sEnds p ".py" then some "text/x-python"
  else if sEnds p ".md" then some "text/markdown"
  else if sEnds p ".html" then some "text/html"
  else if sEnds p ".csv" then some "text/csv"
  else if sEnds p ".png" then some "image/png"
  else if sEnds p ".jpg" then some "image/jpeg"
  else if sEnds p ".gz" then some "application/gzip"
  else if sEnds p ".json" then some "application/json"
  else if sEnds p ".pdf" then some "application/pdf"
  else none

/-! ### FileOperations (src/tools/file_operations.py) -/

/-- `FileOperations.read_file`: security gate, existence and regular-file
checks, size ceiling, MIME binary rejection, then the content with its line
count, truncated at `max_output_lines` lines with an explicit marker. -/
def read_file (cfg : SecurityConfig) (fs : Fs) (file_path : String) : Obj :=
  match is_path_allowed cfg fs.cwd file_path with
  | (false, message) => [("success", .bool false), ("error", .str message)]
  | (true, _) =>
    if ¬ fs.exists file_path then
      [("success", .bool false), ("error", .str ("File not found: " ++ file_path))]
    else
      match fs.file? file_path with
      | none =>
          [("success", .bool false), ("error", .str ("Path is not a file: " ++ file_path))]
      | some content =>
          let file_size := byteLen content
          let max_file_size := cfg.max_file_size_mb * 1024 * 1024
          if file_size > max_file_size then
            [("success", .bool false),
             ("error", .str ("File too large: " ++ toString file_size ++ " bytes (max: "
               ++ toString max_file_size ++ ")"))]
          else
            let mime_type := guessType file_path
            let is_binary := match mime_type with
              | some m => !sStarts m "text/"
              | none => false
            if is_binary then
              [("success", .bool false),
               ("error", .str ("Cannot read binary file: " ++ file_path ++ " (type: "
                 ++ (mime_type.getD "") ++ ")"))]
            else
              let max_lines := cfg.max_output_lines
              let lines := splitNl content
              let content' :=
                if lines.length > max_lines then
                  joinNl (lines.take max_lines)
                    ++ "\n... (truncated, showing first " ++ toString max_lines ++ " lines)"
                else content
              [("success", .bool true),
               ("content", .str content'),
               ("file_path", .str file_path),
               ("size", .int file_size),
               ("lines", .int lines.length)]

/-- `FileOperations.create_file`: security gate, parent-directory creation,
refusal when the target already exists, then the write. -/
def create_file (cfg : SecurityConfig) (fs : Fs) (file_path content : String) :
    Obj × Fs :=
  match is_path_allowed cfg fs.cwd file_path with
  | (false, message) => ([("success", .bool false), ("error", .str message)], fs)
  | (true, _) =>
    let directory := dirname file_path
    let fs₁ := if directory ≠ "" ∧ ¬ fs.exists directory then fs.makedirs directory else fs
    if fs₁.exists file_path then
      ([("success", .bool false),
        ("error", .str ("File already exists: " ++ file_path))], fs₁)
    else
      ([("success", .bool true),
        ("message", .str ("File created successfully: " ++ file_path)),
        ("size", .int (byteLen content))],
       fs₁.setFile file_path content)

/-! ### EditOperations (src/tools/edit_operations.py) -/

/-- Python file-object line iteration / `readlines`: split after every
newline, keeping the terminator; a final fragment without a newline is its
own last line. -/
def readlines (s : String) : List String :=
  let parts := splitNl s
  match parts.getLast? with
  | none => []
  | some last =>
      if last = "" then parts.dropLast.map (· ++ "\n")
      else parts.dropLast.map (· ++ "\n") ++ [last]

/-- The replacement-line computation of `EditOperations.edit_file`: split the
content on newlines and re-terminate every piece, keeping the final piece
bare when the content does not end in a newline. -/
def pyContentLines (content : String) : List String :=
  let new_content_lines := splitNl content
  if ¬ sEnds content "\n" then
    new_content_lines.dropLast.map (· ++ "\n") ++ [new_content_lines.getLastD ""]
  else
    new_content_lines.map (· ++ "\n")

/-- `EditOperations._create_backup`: nothing to do when the target does not
exist; otherwise copy it into `backups/` under a timestamped name.  Returns
the backup path (`JVal.null` models Python `None`) with the updated
filesystem. -/
def create_backup (fs : Fs) (now : String) (file_path : String) : JVal × Fs :=
  if ¬ fs.exists file_path then (JVal.null, fs)
  else
    let backup_path := "backups/" ++ basename file_path ++ "." ++ now ++ ".backup"
    let fs₁ := fs.makedirs "backups"
    match fs₁.file? file_path with
    | some content => (.str backup_path, fs₁.setFile backup_path content)
    | none => (.str backup_path, fs₁)

/-- `EditOperations.edit_file`: security gate, backup, then either a 1-indexed
inclusive line-range splice (both bounds given) or a whole-file replacement. -/
def edit_file (cfg : SecurityConfig) (fs : Fs) (now : String)
    (file_path content : String) (start_line end_line : Option Int) : Obj × Fs :=
  match is_path_allowed cfg fs.cwd file_path with
  | (false, message) => ([("success", .bool false), ("error", .str message)], fs)
  | (true, _) =>
    let (backup_path, fs₁) := create_backup fs now file_path
    match start_line, end_line with
    | some start_line, some end_line =>
        if ¬ fs₁.exists file_path then
          ([("success", .bool false),
            ("error", .str ("File not found: " ++ file_path))], fs₁)
        else
          match fs₁.file? file_path with
          | none => ([("success", .bool false),
                      ("error", .str ("File not found: " ++ file_path))], fs₁)
          | some current =>
            let lines := readlines current
            if start_line < 1 ∨ end_line < start_line ∨ start_line > (lines.length : Int) then
              ([("success", .bool false),
                ("error", .str ("Invalid line range: " ++ toString start_line ++ "-"
                  ++ toString end_line ++ " (file has " ++ toString lines.length
                  ++ " lines)"))], fs₁)
            else
              let new_content_lines := pyContentLines content
              let lines' := lines.take (start_line - 1).toNat ++ new_content_lines
                ++ lines.drop end_line.toNat
              ([("success", .bool true),
                ("message", .str ("File edited successfully (lines " ++ toString start_line
                  ++ "-" ++ toString end_line ++ "): " ++ file_path)),
                ("backup_path", backup_path),
                ("lines_modified", .int (end_line - start_line + 1)),
                ("new_lines", .int new_content_lines.length)],
               fs₁.setFile file_path (sConcat lines'))
    | _, _ =>
        let directory := dirname file_path
        let fs₂ := if directory ≠ "" ∧ ¬ fs₁.exists directory then fs₁.makedirs directory else fs₁
        ([("success", .bool true),
          ("message", .str ("File edited successfully: " ++ file_path)),
          ("backup_path", backup_path),
          ("size", .int (byteLen content)),
          ("lines", .int (splitNl content).length)],
         fs₂.setFile file_path content)

/-! ### TerminalOperations (src/tools/terminal_operations.py)

`execute_command` spawns the shell command and arms `Timer(30, process.kill)`.
The child's behaviour is a parameter of the embedding: how long it runs, what
it writes, its exit code, and the partial output collected by the time a kill
lands.  CPython semantics of the combination used here: when the watchdog
fires, `process.kill()` delivers SIGKILL and the pending
`process.communicate()` call *returns normally* with the collected partial
output and `returncode = -9`; it does not raise, so the `except` branch that
would report the timeout error is not reached on a timeout. -/

structure ProcBehavior where
  /-- wall-clock seconds the child would need to finish -/
  duration : Nat
  stdout : String := ""
  stderr : String := ""
  returncode : Int := 0
  /-- stdout collected by the time the watchdog kill lands -/
  killedStdout : String := ""
  killedStderr : String := ""

/-- Truncate a captured stream at `max` lines with the explicit marker, as
both branches of the output-limiting code do. -/
def truncStream (max : Nat) (s : String) : String :=
  let lines := splitNl s
  if lines.length > max then
    joinNl (lines.take max) ++ "\n... (truncated, showing first " ++ toString max ++ " lines)"
  else s

/-- `TerminalOperations.execute_command`. -/
def execute_command (cfg : SecurityConfig) (fs : Fs) (beh : ProcBehavior)
    (command working_directory : String) : Obj :=
  match is_command_allowed cfg command with
  | (false, message) => [("success", .bool false), ("error", .str message)]
  | (true, _) =>
    if ¬ fs.exists working_directory then
      [("success", .bool false),
       ("error", .str ("Working directory not found: " ++ working_directory))]
    else if ¬ fs.isDir working_directory then
      [("success", .bool false),
       ("error", .str ("Working directory is not a directory: " ++ working_directory))]
    else
      let timeout := 30
      let (stdout, stderr, return_code) :=
        if beh.duration > timeout then (beh.killedStdout, beh.killedStderr, (-9 : Int))
        else (beh.stdout, beh.stderr, beh.returncode)
      let stdout_lines := splitNl stdout
      let stderr_lines := splitNl stderr
      [("success", .bool true),
       ("command", .str command),
       ("working_directory", .str working_directory),
       ("stdout", .str (truncStream cfg.max_output_lines stdout)),
       ("stderr", .str (truncStream cfg.max_output_lines stderr)),
       ("return_code", .int return_code),
       ("stdout_lines", .int stdout_lines.length),
       ("stderr_lines", .int stderr_lines.length)]

/-! ### SearchOperations (src/tools/search_operations.py)

`grep_search` compiles the pattern with `re.IGNORECASE`; the queries this
system routes through it are literal, so matching is modelled as
case-insensitive substring search.  `glob.glob(dir + "/**/" + file_pattern,
recursive=True)` is modelled as: every file under `dir` whose basename
matches the glob pattern (`*` and `?` wildcards, `*` not matching a leading
dot), enumerated in filesystem order. -/

/-- `fnmatch` core for `*`, `?` and literal characters, structurally
recursive on a fuel bounding the combined length of pattern and name. -/
def fnmatchF : Nat → List Char → List Char → Bool
  | 0, _, _ => false
  | _ + 1, [], [] => true
  | _ + 1, [], _ :: _ => false
  | fuel + 1, '*' :: ps, [] => fnmatchF fuel ps []
  | fuel + 1, '*' :: ps, c :: cs =>
      fnmatchF fuel ps (c :: cs) || fnmatchF fuel ('*' :: ps) cs
  | fuel + 1, '?' :: ps, _ :: cs => fnmatchF fuel ps cs
  | _ + 1, '?' :: _, [] => false
  | fuel + 1, p :: ps, c :: cs => p = c && fnmatchF fuel ps cs
  | _ + 1, _ :: _, [] => false

/-- `fnmatch` for `*`, `?` and literal characters (fuel exceeds the number of
pattern/name characters consumed, so the zero-fuel branch is unreachable). -/
def fnmatchList (p s : List Char) : Bool := fnmatchF (p.length + s.length + 1) p s

/-- glob-style name match: wildcards do not match a leading dot. -/
def globNameMatch (pattern name : String) : Bool :=
  match pattern.data, name.data with
  | '*' :: _, '.' :: _ => false
  | '?' :: _, '.' :: _ => false
  | ps, ns => fnmatchList ps ns

/-- the files that `glob.glob(directory + "/**/" + file_pattern,
recursive=True)` followed by the `os.path.isfile` filter yields, as
(relative path, content) pairs -/
def globFiles (fs : Fs) (directory file_pattern : String) : List (String × String) :=
  let absd := abspath fs.cwd directory
  fs.files.filterMap (fun kv =>
    if sStarts kv.1 (absd ++ "/") ∧ globNameMatch file_pattern (basename kv.1) then
      some ((kv.1.drop (absd ++ "/").length), kv.2)
    else none)

/-- one `re.finditer` step list for a literal pattern: non-overlapping match
spans, scanning left to right (both sides lowercased for `re.IGNORECASE`) -/
def findSpans (needle hay : List Char) : Nat → Nat → List (Nat × Nat)
  | 0, _ => []
  | fuel + 1, i =>
      match hay.drop i with
      | [] => if needle = [] ∧ i = hay.length then [(i, i)] else []
      | _ :: _ =>
          if needle.isPrefixOf (hay.drop i) then
            (i, i + needle.length) :: findSpans needle hay fuel (i + max needle.length 1)
          else findSpans needle hay fuel (i + 1)

structure GrepMatch where
  file : String
  line_number : Nat
  line_content : String
  match_positions : List (Nat × Nat)
deriving DecidableEq

/-- the matches `grep_search` collects in one file -/
def fileGrep (pattern rel : String) (content : String) : List GrepMatch :=
  (List.enumFrom 1 (readlines content)).filterMap (fun li =>
    let (line_num, line) := li
    if sContains (sLower line) (sLower pattern) then
      some { file := rel, line_number := line_num, line_content := sStrip line,
             match_positions :=
               findSpans (sLower pattern).data (sLower line).data (line.length + 1) 0 }
    else none)

/-- binary sniff: a null byte in the first 1KB skips the file -/
def isBinarySniff (content : String) : Bool :=
  (content.data.take 1024).contains (Char.ofNat 0)

structure GrepResult where
  success : Bool
  pattern : String := ""
  directory : String := ""
  file_pattern : String := ""
  matches' : List GrepMatch := []
  total_found : Nat := 0
  truncated : Bool := false
  error : String := ""

/-- `SearchOperations.grep_search`: enumerate the glob matches, skip binary
files, scan line by line, stop at `max_output_lines` matches. -/
def grep_search (cfg : SecurityConfig) (fs : Fs)
    (pattern directory file_pattern : String) : GrepResult :=
  if ¬ fs.exists directory then
    { success := false, error := "Directory not found: " ++ directory }
  else
    let all := (globFiles fs directory file_pattern).flatMap (fun pc =>
      if isBinarySniff pc.2 then [] else fileGrep pattern pc.1 pc.2)
    let matches' := all.take cfg.max_output_lines
    { success := true, pattern := pattern, directory := directory,
      file_pattern := file_pattern, matches' := matches',
      total_found := matches'.length,
      truncated := decide (matches'.length ≥ cfg.max_output_lines) }

/-- the key `codebase_search` deduplicates on -/
def matchKey (m : GrepMatch) : String × Nat := (m.file, m.line_number)

/-- first-occurrence deduplication by `(file, line_number)` -/
def dedupByKey : List GrepMatch → List (String × Nat) → List GrepMatch
  | [], _ => []
  | m :: rest, seen =>
      if matchKey m ∈ seen then dedupByKey rest seen
      else m :: dedupByKey rest (matchKey m :: seen)

/-- the `(file, line_number)` sort order of `codebase_search` (Python tuple
comparison) -/
def keyLe (m₁ m₂ : GrepMatch) : Bool :=
  decide (m₁.file < m₂.file ∨ (m₁.file = m₂.file ∧ m₁.line_number ≤ m₂.line_number))

/-- stable insertion into a sorted list -/
def insLe (le : α → α → Bool) (x : α) : List α → List α
  | [] => [x]
  | y :: ys => if le x y then x :: y :: ys else y :: insLe le x ys

/-- insertion sort, modelling Python `list.sort(key=...)` -/
def sortLe (le : α → α → Bool) : List α → List α
  | [] => []
  | x :: xs => insLe le x (sortLe le xs)

/-- the fixed default glob list of `codebase_search` -/
def defaultFileTypes : List String :=
  ["*.py", "*.js", "*.ts", "*.java", "*.cpp", "*.c", "*.h"]

structure CodebaseResult where
  success : Bool
  query : String := ""
  file_types : List String := []
  matches' : List GrepMatch := []
  total_found : Nat := 0
  truncated : Bool := false
  error : String := ""

/-- `SearchOperations.codebase_search`: one `grep_search` over `"."` per glob
(`none` models the Python default `file_types=None`, replaced by the fixed
default list), results merged, deduplicated by `(file, line_number)`, sorted
by that key, capped at `max_output_lines` with the truncation flag. -/
def codebase_search (cfg : SecurityConfig) (fs : Fs) (query : String)
    (file_types : Option (List String)) : CodebaseResult :=
  let fts := match file_types with
    | none => defaultFileTypes
    | some l => l
  let all_matches := fts.flatMap (fun file_type =>
    let r := grep_search cfg fs query "." file_type
    if r.success then r.matches' else [])
  let unique_matches := dedupByKey all_matches []
  let sorted := sortLe keyLe unique_matches
  { success := true, query := query, file_types := fts,
    matches' := sorted.take cfg.max_output_lines,
    total_found := unique_matches.length,
    truncated := decide (unique_matches.length ≥ cfg.max_output_lines) }

/-! ### Orchestrator (src/proxy_server.py, handle_chat_completion)

The tool-call phase of `handle_chat_completion`, lines 376–394: for each tool
call of the model reply, parse its raw argument payload with `json.loads`,
execute the dispatcher, and append one tool-role message echoing the call's
id and name with the JSON-serialized result as content; then append the
assistant message followed by all tool results to the conversation.

`json.loads` is called directly in the loop body — outside the `try/except`
that lives *inside* `execute_tool_call` — so a parse failure propagates as an
exception (modelled by `Except.error`) to the `try/except` wrapping the whole
of `handle_chat_completion`, which turns it into the 500 `proxy_error`
response.  The dispatcher itself is total (its body is wrapped in a
catch-all `except` returning `{"success": False, ...}`); it is a parameter
`exec` of the loop, paired with a state `w` threading its side effects. -/

structure ToolCall where
  /-- `tool_call.get('id')` -/
  id : Option String := none
  /-- `tool_call.get('function', {}).get('name')` -/
  name : Option String := none
  /-- `tool_call.get('function', {}).get('arguments', '{}')` -/
  arguments : Option String := none

structure ChatMsg where
  role : String
  content : String := ""
  tool_call_id : Option String := none
  name : Option String := none
  tool_calls : List ToolCall := []

/-- the tool-role message built for one executed call -/
def mkToolMsg (tc : ToolCall) (result : Obj) : ChatMsg :=
  { role := "tool", tool_call_id := tc.id, name := tc.name,
    content := JVal.dumps (.obj result) }

/-- the `for tool_call in message['tool_calls']` loop -/
def runToolCalls (exec : α → Option String → JVal → Obj × α) (w : α) :
    List ToolCall → Except String (List ChatMsg × α)
  | [] => .ok ([], w)
  | tc :: rest =>
      match json_loads (tc.arguments.getD "\x7b\x7d") with
      | .error e => .error e
      | .ok arguments =>
          let (result, w') := exec w tc.name arguments
          match runToolCalls exec w' rest with
          | .error e => .error e
          | .ok (msgs, w'') => .ok (mkToolMsg tc result :: msgs, w'')

/-- the tool-call phase: run the calls, then append the assistant message and
the tool results to the conversation (`data['messages'].append(message)`;
`data['messages'].extend(tool_results)`). -/
def toolCallPhase (exec : α → Option String → JVal → Obj × α) (w : α)
    (messages : List ChatMsg) (message : ChatMsg) :
    Except String (List ChatMsg × α) :=
  match runToolCalls exec w message.tool_calls with
  | .error e => .error e
  | .ok (tool_results, w') => .ok (messages ++ message :: tool_results, w')

/-- outcome of `handle_chat_completion` restricted to the tool-call phase:
either the updated conversation (handed to the follow-up model request), or
the 500 error envelope produced by the surrounding `try/except`. -/
inductive TopOutcome (α : Type) where
  | ok : List ChatMsg → α → TopOutcome α
  | errorResponse : Obj → Nat → TopOutcome α

/-- the tool-call phase together with the `except Exception` handler of
`handle_chat_completion` (`jsonify({"error": {...}}), 500`). -/
def handleToolCalls (exec : α → Option String → JVal → Obj × α) (w : α)
    (messages : List ChatMsg) (message : ChatMsg) : TopOutcome α :=
  match toolCallPhase exec w messages message with
  | .ok (msgs, w') => .ok msgs w'
  | .error e =>
      .errorResponse
        [("error", .obj [("message", .str ("Proxy error: " ++ e)),
                         ("type", .str "proxy_error")])] 500

/-! ## Claim theorems -/

/-! ### Fixtures -/

/-- default security configuration (nothing blocked, nothing restricted) -/
def cfgDefault : SecurityConfig := {}

/-- a working filesystem whose current directory exists -/
def fsWork : Fs := { cwd := "/w", dirs := ["/w"] }

/-! ### C1 — timeout reporting of `execute_command` -/

/-- C1 (code bug): a command whose child outlives the 30-second watchdog is
killed, but `execute_command` still reports `success = True` with
`return_code = -9` and no error field: `process.communicate()` returns
normally after `process.kill()`, so the `except` branch carrying the
"Command timed out" error is never reached.  The claim's distinct Timeout
error (`success=false`) is not produced. -/
theorem execute_command_timeout_reports_success :
    (execute_command cfgDefault fsWork
        { duration := 31, killedStdout := "partial" } "sleep 31" ".").lookup "success"
      = some (.bool true)
    ∧ (execute_command cfgDefault fsWork
        { duration := 31, killedStdout := "partial" } "sleep 31" ".").lookup "return_code"
      = some (.int (-9))
    ∧ (execute_command cfgDefault fsWork
        { duration := 31, killedStdout := "partial" } "sleep 31" ".").lookup "error"
      = none :=
  ⟨rfl, rfl, rfl⟩

/-! ### C10 — string-prefix (not component-wise) path comparison -/

/-- `p` lies inside directory `d` in the component-wise sense. -/
def insideDir (d p : String) : Bool := p = d || sStarts p (d ++ "/")

/-- blocking `/tmp` -/
def cfgBlockTmp : SecurityConfig := { blocked_directories := ["/tmp"] }

/-- allowing only `/home/user` -/
def cfgAllowHome : SecurityConfig := { allowed_directories := ["/home/user"] }

/-- C10: the path permit check compares raw absolute-path strings by prefix:
with `/tmp` blocked, `/tmp_other/x` is denied although it is not inside
`/tmp`; and with the allow-list `["/home/user"]`, the sibling
`/home/user2/f` passes although it is not inside `/home/user`. -/
theorem path_check_uses_string_prefixes :
    (is_path_allowed cfgBlockTmp "/w" "/tmp_other/x").1 = false
    ∧ insideDir "/tmp" (abspath "/w" "/tmp_other/x") = false
    ∧ is_path_allowed cfgAllowHome "/w" "/home/user2/f" = (true, "OK")
    ∧ insideDir "/home/user" (abspath "/w" "/home/user2/f") = false :=
  ⟨rfl, rfl, rfl, rfl⟩

/-! ### C5 — blocked directories win over the allow-list -/

/-- C5: whenever the absolute form of a path extends the absolute form of
some blocked directory as a string prefix, `_is_path_allowed` denies —
whatever the allow-list contains — and its reason names a blocked prefix
that matched. -/
theorem blocked_dir_denies (cfg : SecurityConfig) (cwd p b : String)
    (hb : b ∈ cfg.blocked_directories)
    (hpre : sStarts (abspath cwd p) (abspath cwd b) = true) :
    (is_path_allowed cfg cwd p).1 = false
    ∧ ∃ b' ∈ cfg.blocked_directories,
        sStarts (abspath cwd p) (abspath cwd b') = true
        ∧ (is_path_allowed cfg cwd p).2 = "Access denied: " ++ b' ++ " is blocked" := by
  unfold is_path_allowed
  cases hfind : cfg.blocked_directories.find?
      (fun bd => sStarts (abspath cwd p) (abspath cwd bd)) with
  | none =>
      exact absurd hpre (by simpa using List.find?_eq_none.mp hfind b hb)
  | some b' =>
      refine ⟨rfl, b', List.mem_of_find?_eq_some hfind, ?_, rfl⟩
      simpa using List.find?_some hfind

/-- a blocked directory together with an allow-list that would admit the path -/
def cfgBlockAndAllow : SecurityConfig :=
  { blocked_directories := ["/tmp"], allowed_directories := ["/tmp"] }

/-- C5 witness: `/tmp/x` is under the blocked `/tmp` and is denied although
the allow-list contains `/tmp` itself. -/
theorem blocked_dir_denies_witness :
    (is_path_allowed cfgBlockAndAllow "/w" "/tmp/x").1 = false
    ∧ ∃ b' ∈ cfgBlockAndAllow.blocked_directories,
        sStarts (abspath "/w" "/tmp/x") (abspath "/w" b') = true
        ∧ (is_path_allowed cfgBlockAndAllow "/w" "/tmp/x").2
            = "Access denied: " ++ b' ++ " is blocked" :=
  blocked_dir_denies cfgBlockAndAllow "/w" "/tmp/x" "/tmp" (by simp [cfgBlockAndAllow]) rfl

/-! ### C6 — blocked command substrings -/

/-- blocked substring with leading whitespace, allow-listed first token -/
def cfgC6 : SecurityConfig := { blocked_commands := [" rm"], allowed_commands := ["rm"] }

/-- C6 counterexample: the command `" rm -rf /"` contains the configured
blocked substring `" rm"` case-insensitively, yet `_is_command_allowed`
permits it: the check strips the command before the substring test, and the
stripped form `"rm -rf /"` no longer contains `" rm"`. -/
theorem contains_blocked_substring_but_permitted :
    sContains (sLower " rm -rf /") (sLower " rm") = true
    ∧ is_command_allowed cfgC6 " rm -rf /" = (true, "OK") :=
  ⟨rfl, rfl⟩

/-- C6 (amended): for every command whose *stripped*, lowercased form
contains a blocked substring (lowercased), the check denies — regardless of
the allow-list, so in particular even when the first shell token is
allow-listed — and the reason names a blocked substring that matched. -/
theorem blocked_substring_denies (cfg : SecurityConfig) (command b : String)
    (hb : b ∈ cfg.blocked_commands)
    (hc : sContains (sStrip (sLower command)) (sLower b) = true) :
    (is_command_allowed cfg command).1 = false
    ∧ ∃ b' ∈ cfg.blocked_commands,
        sContains (sStrip (sLower command)) (sLower b') = true
        ∧ (is_command_allowed cfg command).2
            = "Command blocked: contains " ++ squote ++ b' ++ squote := by
  unfold is_command_allowed
  cases hfind : cfg.blocked_commands.find?
      (fun blocked => sContains (sStrip (sLower command)) (sLower blocked)) with
  | none =>
      exact absurd hc (by simpa using List.find?_eq_none.mp hfind b hb)
  | some b' =>
      refine ⟨rfl, b', List.mem_of_find?_eq_some hfind, ?_, rfl⟩
      simpa using List.find?_some hfind

/-- blocked `rm -rf` with the first token `sudo` allow-listed -/
def cfgBlockRm : SecurityConfig :=
  { blocked_commands := ["rm -rf"], allowed_commands := ["sudo"] }

/-- C6 witness: `sudo rm -rf /` has the allow-listed first token `sudo` but
contains the blocked substring `rm -rf` and is denied. -/
theorem blocked_substring_denies_witness :
    (is_command_allowed cfgBlockRm "sudo rm -rf /").1 = false
    ∧ ∃ b' ∈ cfgBlockRm.blocked_commands,
        sContains (sStrip (sLower "sudo rm -rf /")) (sLower b') = true
        ∧ (is_command_allowed cfgBlockRm "sudo rm -rf /").2
            = "Command blocked: contains " ++ squote ++ b' ++ squote :=
  blocked_substring_denies cfgBlockRm "sudo rm -rf /" "rm -rf"
    (by simp [cfgBlockRm]) rfl

/-! ### C7 — line-range editing -/

/-- a five-line file -/
def fsFive : Fs :=
  { cwd := "/w", dirs := ["/w"], files := [("/w/five.txt", "a\nb\nc\nd\ne\n")] }

/-- C7 (code bug): editing lines 2–3 of the 5-line file `a..e` does not
produce the claimed 4-line result.  With the one-line replacement `"X\n"`,
the trailing-newline normalization turns the content into the two pieces
`["X\n", "\n"]`, so the file ends up with 5 lines including a phantom blank
line; with the replacement `"X"`, the unterminated piece is written directly
before old line 4, merging into `"Xd\n"`, so old line 4 is not preserved and
the file has 3 lines.  In both cases the claimed resulting line count
`5 - 2 + 1 = 4` is wrong. -/
theorem edit_file_range_newline_bug :
    (edit_file cfgDefault fsFive "20240101_120000" "five.txt" "X\n"
        (some 2) (some 3)).2.file? "five.txt" = some "a\nX\n\nd\ne\n"
    ∧ readlines "a\nX\n\nd\ne\n" = ["a\n", "X\n", "\n", "d\n", "e\n"]
    ∧ (edit_file cfgDefault fsFive "20240101_120000" "five.txt" "X"
        (some 2) (some 3)).2.file? "five.txt" = some "a\nXd\ne\n"
    ∧ readlines "a\nXd\ne\n" = ["a\n", "Xd\n", "e\n"] :=
  ⟨rfl, rfl, rfl, rfl⟩

/-! ### C8 — `create_file` refuses existing targets -/

/-- `makedirs` touches only the directory set. -/
theorem Fs.isFile_makedirs (fs : Fs) (d p : String) :
    (fs.makedirs d).isFile p = fs.isFile p := rfl

/-- C8: for every path at which a file already exists, `create_file` fails,
leaves the file table (in particular the existing file's content) untouched,
and — whenever the security gate passes, which is the only case in which the
existence check is reached — reports "File already exists". -/
theorem create_file_existing_never_overwrites (cfg : SecurityConfig) (fs : Fs)
    (p c : String) (hex : fs.isFile p = true) :
    (create_file cfg fs p c).1.lookup "success" = some (.bool false)
    ∧ (create_file cfg fs p c).2.files = fs.files
    ∧ ((is_path_allowed cfg fs.cwd p).1 = true →
        (create_file cfg fs p c).1.lookup "error"
          = some (.str ("File already exists: " ++ p))) := by
  rcases hpr : is_path_allowed cfg fs.cwd p with ⟨b, msg⟩
  cases b with
  | false =>
      refine ⟨?_, ?_, ?_⟩ <;> simp [create_file, hpr, List.lookup]
  | true =>
      have hex0 : fs.exists p = true := by simp [Fs.exists, hex]
      have hexmk : ∀ d, (fs.makedirs d).exists p = true := by
        intro d
        have h' : (fs.makedirs d).isFile p = true := hex
        simp [Fs.exists, h']
      have hmkfiles : ∀ d, (fs.makedirs d).files = fs.files := fun _ => rfl
      refine ⟨?_, ?_, fun _ => ?_⟩ <;>
        simp only [create_file, hpr] <;>
        (split <;> simp [hexmk, hex0, hmkfiles, List.lookup])

/-- an existing file under the default (permissive) configuration -/
def fsHello : Fs :=
  { cwd := "/w", dirs := ["/w"], files := [("/w/hello.txt", "old")] }

/-- C8 witness: creating `/w/hello.txt` over the existing file fails with
"File already exists" and leaves the stored content `"old"` in place. -/
theorem create_file_existing_never_overwrites_witness :
    (create_file cfgDefault fsHello "hello.txt" "new").1.lookup "success"
      = some (.bool false)
    ∧ (create_file cfgDefault fsHello "hello.txt" "new").2.files = fsHello.files
    ∧ ((is_path_allowed cfgDefault fsHello.cwd "hello.txt").1 = true →
        (create_file cfgDefault fsHello "hello.txt" "new").1.lookup "error"
          = some (.str ("File already exists: " ++ "hello.txt"))) :=
  create_file_existing_never_overwrites cfgDefault fsHello "hello.txt" "new" rfl

/-! ### C9 — `read_file` truncation -/

/-- cap of two output lines -/
def cfgMax2 : SecurityConfig := { max_output_lines := 2 }

/-- a readable three-line text file -/
def fsRead : Fs :=
  { cwd := "/w", dirs := ["/w"], files := [("/w/f.txt", "l1\nl2\nl3")] }

/-- C9 counterexample: reading a 3-line file under a 2-line cap returns the
truncated content with the explicit marker, but the result carries *no*
`truncated` key at all — the claimed truncation flag is absent (only the
original line count is reported). -/
theorem read_file_truncated_without_flag :
    (read_file cfgMax2 fsRead "f.txt").lookup "content"
      = some (.str "l1\nl2\n... (truncated, showing first 2 lines)")
    ∧ (read_file cfgMax2 fsRead "f.txt").lookup "lines" = some (.int 3)
    ∧ (read_file cfgMax2 fsRead "f.txt").lookup "truncated" = none :=
  ⟨rfl, rfl, rfl⟩

/-- C9 (amended): for every readable text file whose line count exceeds the
output cap, `read_file` succeeds with the content truncated at the cap and
the explicit marker appended, and reports the original total line count; it
carries no `truncated` flag field. -/
theorem read_file_truncates_with_marker (cfg : SecurityConfig) (fs : Fs)
    (p content : String)
    (hgate : (is_path_allowed cfg fs.cwd p).1 = true)
    (hfile : fs.file? p = some content)
    (hsize : byteLen content ≤ cfg.max_file_size_mb * 1024 * 1024)
    (hmime : (match guessType p with
              | some m => !sStarts m "text/"
              | none => false) = false)
    (hlines : (splitNl content).length > cfg.max_output_lines) :
    read_file cfg fs p
      = [("success", .bool true),
         ("content", .str (joinNl ((splitNl content).take cfg.max_output_lines)
            ++ "\n... (truncated, showing first "
            ++ toString cfg.max_output_lines ++ " lines)")),
         ("file_path", .str p),
         ("size", .int (byteLen content)),
         ("lines", .int (splitNl content).length)]
    ∧ (read_file cfg fs p).lookup "truncated" = none := by
  rcases hpr : is_path_allowed cfg fs.cwd p with ⟨b, msg⟩
  rw [hpr] at hgate
  cases hgate
  have hnotlarge : ¬ (byteLen content > cfg.max_file_size_mb * 1024 * 1024) :=
    Nat.not_lt.mpr hsize
  have heq : read_file cfg fs p
      = [("success", .bool true),
         ("content", .str (joinNl ((splitNl content).take cfg.max_output_lines)
            ++ "\n... (truncated, showing first "
            ++ toString cfg.max_output_lines ++ " lines)")),
         ("file_path", .str p),
         ("size", .int (byteLen content)),
         ("lines", .int (splitNl content).length)] := by
    simp [read_file, hpr, Fs.exists, Fs.isFile, hfile, hnotlarge, hmime, hlines]
  refine ⟨heq, ?_⟩
  rw [heq]
  rfl

/-- C9 witness: the amended statement at the 3-line file under the 2-line
cap. -/
theorem read_file_truncates_with_marker_witness :
    read_file cfgMax2 fsRead "f.txt"
      = [("success", .bool true),
         ("content", .str (joinNl ((splitNl "l1\nl2\nl3").take cfgMax2.max_output_lines)
            ++ "\n... (truncated, showing first "
            ++ toString cfgMax2.max_output_lines ++ " lines)")),
         ("file_path", .str "f.txt"),
         ("size", .int (byteLen "l1\nl2\nl3")),
         ("lines", .int (splitNl "l1\nl2\nl3").length)]
    ∧ (read_file cfgMax2 fsRead "f.txt").lookup "truncated" = none :=
  read_file_truncates_with_marker cfgMax2 fsRead "f.txt" "l1\nl2\nl3"
    rfl rfl (by decide) rfl (by decide)

/-! ### C2 — malformed tool-call arguments -/

/-- did the tool-call phase end in the top-level 500 error envelope? -/
def TopOutcome.isErrorResponse : TopOutcome α → Bool
  | .errorResponse _ _ => true
  | .ok _ _ => false

/-- a dispatcher stub for the loop-level counterexamples (the loop is
executor-independent at the points these claims test) -/
def execStub : Unit → Option String → JVal → Obj × Unit :=
  fun u _ _ => ([("success", .bool true)], u)

/-- a tool call whose raw argument payload is not JSON -/
def badCall : ToolCall :=
  { id := some "call_1", name := some "read_file", arguments := some "not json" }

/-- a well-formed tool call -/
def goodCall : ToolCall :=
  { id := some "call_2", name := some "read_file",
    arguments := some "\x7b\"file_path\": \"/w/f.txt\"\x7d" }

/-- an assistant message carrying the batch `[badCall, goodCall]` -/
def asstBad : ChatMsg := { role := "assistant", tool_calls := [badCall, goodCall] }

/-- C2 counterexample: in the batch `[badCall, goodCall]`, the unparseable
arguments of the first call do not produce a handler-local failed ToolResult;
the `json.JSONDecodeError` escapes to the top-level handler, the request ends
in the 500 `proxy_error` response, and no tool message is produced for the
remaining call. -/
theorem bad_arguments_abort_batch :
    handleToolCalls execStub () [] asstBad
      = .errorResponse
          [("error", .obj [("message", .str "Proxy error: Expecting value"),
                           ("type", .str "proxy_error")])] 500 :=
  rfl

/-- C2 (amended): whenever any call in the batch has a raw argument payload
that `json.loads` rejects, the tool-call phase of `handle_chat_completion`
ends in the top-level error response (the parse failure is fatal to the
batch, not handler-local). -/
theorem parse_failure_is_fatal_to_batch {α : Type}
    (exec : α → Option String → JVal → Obj × α) (w : α)
    (messages : List ChatMsg) (message : ChatMsg)
    (h : ∃ tc ∈ message.tool_calls,
        (json_loads (tc.arguments.getD "\x7b\x7d")).toOption = none) :
    (handleToolCalls exec w messages message).isErrorResponse = true := by
  have loop : ∀ (l : List ToolCall) (w : α),
      (∃ tc ∈ l, (json_loads (tc.arguments.getD "\x7b\x7d")).toOption = none) →
      ∃ e, runToolCalls exec w l = .error e := by
    intro l
    induction l with
    | nil => rintro w ⟨tc, htc, -⟩; exact absurd htc (List.not_mem_nil tc)
    | cons hd tl ih =>
        rintro w ⟨tc, htc, hbad⟩
        cases hparse : json_loads (hd.arguments.getD "\x7b\x7d") with
        | error e => exact ⟨e, by simp [runToolCalls, hparse]⟩
        | ok v =>
            rcases List.mem_cons.mp htc with rfl | hmem
            · rw [hparse] at hbad
              simp [Except.toOption] at hbad
            · obtain ⟨e, he⟩ := ih (exec w hd.name v).2 ⟨tc, hmem, hbad⟩
              refine ⟨e, ?_⟩
              simp [runToolCalls, hparse, he]
  obtain ⟨e, he⟩ := loop message.tool_calls w h
  simp [handleToolCalls, toolCallPhase, he, TopOutcome.isErrorResponse]

/-- C2 witness: the amended statement at the concrete batch
`[badCall, goodCall]`. -/
theorem parse_failure_is_fatal_to_batch_witness :
    (handleToolCalls execStub () [] asstBad).isErrorResponse = true :=
  parse_failure_is_fatal_to_batch execStub () [] asstBad
    ⟨badCall, by simp [asstBad], rfl⟩

/-! ### C3 — ordered tool-result messages -/

/-- C3: a model reply carrying tool_calls `[A, B]` (whose argument payloads
parse) extends the conversation with the assistant message followed by
exactly two tool-role messages, in order `[A-result, B-result]`, each
echoing its own call's id and name, with content the JSON-serialized
ToolResult of the dispatcher. -/
theorem two_tool_calls_append_two_results {α : Type}
    (exec : α → Option String → JVal → Obj × α) (w : α)
    (messages : List ChatMsg) (message : ChatMsg) (A B : ToolCall)
    (aA aB : JVal)
    (hcalls : message.tool_calls = [A, B])
    (hA : json_loads (A.arguments.getD "\x7b\x7d") = .ok aA)
    (hB : json_loads (B.arguments.getD "\x7b\x7d") = .ok aB) :
    toolCallPhase exec w messages message
      = .ok (messages ++ message ::
          [mkToolMsg A (exec w A.name aA).1,
           mkToolMsg B (exec (exec w A.name aA).2 B.name aB).1],
          (exec (exec w A.name aA).2 B.name aB).2)
    ∧ (mkToolMsg A (exec w A.name aA).1).role = "tool"
    ∧ (mkToolMsg A (exec w A.name aA).1).tool_call_id = A.id
    ∧ (mkToolMsg A (exec w A.name aA).1).name = A.name
    ∧ (mkToolMsg A (exec w A.name aA).1).content
        = JVal.dumps (.obj (exec w A.name aA).1)
    ∧ (mkToolMsg B (exec (exec w A.name aA).2 B.name aB).1).role = "tool"
    ∧ (mkToolMsg B (exec (exec w A.name aA).2 B.name aB).1).tool_call_id = B.id
    ∧ (mkToolMsg B (exec (exec w A.name aA).2 B.name aB).1).name = B.name
    ∧ (mkToolMsg B (exec (exec w A.name aA).2 B.name aB).1).content
        = JVal.dumps (.obj (exec (exec w A.name aA).2 B.name aB).1) := by
  refine ⟨?_, rfl, rfl, rfl, rfl, rfl, rfl, rfl, rfl⟩
  simp [toolCallPhase, runToolCalls, hcalls, hA, hB]

/-- an assistant message carrying two well-formed calls -/
def asstTwo : ChatMsg :=
  { role := "assistant",
    tool_calls := [goodCall, { id := some "call_3", name := some "list_directory",
                               arguments := some "\x7b\x7d" }] }

/-- C3 witness: the statement at a concrete two-call batch under the stub
dispatcher. -/
theorem two_tool_calls_append_two_results_witness :
    toolCallPhase execStub () [] asstTwo
      = .ok ([] ++ asstTwo ::
          [mkToolMsg goodCall (execStub () goodCall.name (.obj [("file_path", .str "/w/f.txt")])).1,
           mkToolMsg { id := some "call_3", name := some "list_directory",
                       arguments := some "\x7b\x7d" }
             (execStub (execStub () goodCall.name (.obj [("file_path", .str "/w/f.txt")])).2
               (some "list_directory") (.obj [])).1],
          (execStub (execStub () goodCall.name (.obj [("file_path", .str "/w/f.txt")])).2
            (some "list_directory") (.obj [])).2)
    ∧ (mkToolMsg goodCall (execStub () goodCall.name (.obj [("file_path", .str "/w/f.txt")])).1).role = "tool"
    ∧ (mkToolMsg goodCall (execStub () goodCall.name (.obj [("file_path", .str "/w/f.txt")])).1).tool_call_id = goodCall.id
    ∧ (mkToolMsg goodCall (execStub () goodCall.name (.obj [("file_path", .str "/w/f.txt")])).1).name = goodCall.name
    ∧ (mkToolMsg goodCall (execStub () goodCall.name (.obj [("file_path", .str "/w/f.txt")])).1).content
        = JVal.dumps (.obj (execStub () goodCall.name (.obj [("file_path", .str "/w/f.txt")])).1) := by
  have h := two_tool_calls_append_two_results execStub () [] asstTwo
    goodCall { id := some "call_3", name := some "list_directory", arguments := some "\x7b\x7d" }
    (.obj [("file_path", .str "/w/f.txt")]) (.obj []) rfl rfl rfl
  exact ⟨h.1, h.2.1, h.2.2.1, h.2.2.2.1, h.2.2.2.2.1⟩

/-! ### C4 — `codebase_search` aggregation

Helper lemmas about the insertion sort and the first-occurrence
deduplication. -/

theorem mem_insLe (le : α → α → Bool) (x a : α) (l : List α) :
    a ∈ insLe le x l ↔ a = x ∨ a ∈ l := by
  induction l with
  | nil => simp [insLe]
  | cons y ys ih =>
      by_cases h : le x y = true
      · simp [insLe, h]
      · simp [insLe, h, ih]
        tauto

theorem perm_insLe (le : α → α → Bool) (x : α) (l : List α) :
    (insLe le x l).Perm (x :: l) := by
  induction l with
  | nil => exact List.Perm.refl _
  | cons y ys ih =>
      by_cases h : le x y = true
      · simp [insLe, h]
      · rw [insLe, if_neg h]
        exact (ih.cons y).trans (List.Perm.swap x y ys)

theorem perm_sortLe (le : α → α → Bool) (l : List α) : (sortLe le l).Perm l := by
  induction l with
  | nil => exact List.Perm.refl _
  | cons x xs ih => exact (perm_insLe le x (sortLe le xs)).trans (ih.cons x)

theorem pairwise_insLe (le : α → α → Bool)
    (total : ∀ a b, le a b = true ∨ le b a = true)
    (htrans : ∀ a b c, le a b = true → le b c = true → le a c = true)
    (x : α) (l : List α) (h : l.Pairwise (fun a b => le a b = true)) :
    (insLe le x l).Pairwise (fun a b => le a b = true) := by
  induction l with
  | nil => simp [insLe]
  | cons y ys ih =>
      obtain ⟨hy, hys⟩ := List.pairwise_cons.mp h
      by_cases hxy : le x y = true
      · rw [insLe, if_pos hxy]
        refine List.pairwise_cons.mpr ⟨?_, h⟩
        intro z hz
        rcases List.mem_cons.mp hz with rfl | hz'
        · exact hxy
        · exact htrans _ _ _ hxy (hy z hz')
      · rw [insLe, if_neg hxy]
        refine List.pairwise_cons.mpr ⟨?_, ih hys⟩
        intro z hz
        rcases (mem_insLe le x z ys).mp hz with heq | hz'
        · rw [heq]
          rcases total x y with h' | h'
          · exact absurd h' hxy
          · exact h'
        · exact hy z hz'

theorem pairwise_sortLe (le : α → α → Bool)
    (total : ∀ a b, le a b = true ∨ le b a = true)
    (htrans : ∀ a b c, le a b = true → le b c = true → le a c = true)
    (l : List α) : (sortLe le l).Pairwise (fun a b => le a b = true) := by
  induction l with
  | nil => simp [sortLe]
  | cons x xs ih => exact pairwise_insLe le total htrans x (sortLe le xs) ih

theorem keyLe_total (a b : GrepMatch) : keyLe a b = true ∨ keyLe b a = true := by
  simp only [keyLe, decide_eq_true_eq]
  rcases lt_trichotomy a.file b.file with h | h | h
  · exact Or.inl (Or.inl h)
  · rcases Nat.le_total a.line_number b.line_number with hl | hl
    · exact Or.inl (Or.inr ⟨h, hl⟩)
    · exact Or.inr (Or.inr ⟨h.symm, hl⟩)
  · exact Or.inr (Or.inl h)

theorem keyLe_trans (a b c : GrepMatch) (h₁ : keyLe a b = true)
    (h₂ : keyLe b c = true) : keyLe a c = true := by
  simp only [keyLe, decide_eq_true_eq] at h₁ h₂ ⊢
  rcases h₁ with h₁ | ⟨he₁, hl₁⟩
  · rcases h₂ with h₂ | ⟨he₂, hl₂⟩
    · exact Or.inl (h₁.trans h₂)
    · exact Or.inl (he₂ ▸ h₁)
  · rcases h₂ with h₂ | ⟨he₂, hl₂⟩
    · exact Or.inl (he₁ ▸ h₂)
    · exact Or.inr ⟨he₁.trans he₂, hl₁.trans hl₂⟩

theorem mem_dedupByKey {a : GrepMatch} :
    ∀ (l : List GrepMatch) (seen), a ∈ dedupByKey l seen → a ∈ l := by
  intro l
  induction l with
  | nil => intro seen h; simp [dedupByKey] at h
  | cons m rest ih =>
      intro seen h
      by_cases hm : matchKey m ∈ seen
      · rw [dedupByKey, if_pos hm] at h
        exact List.mem_cons_of_mem _ (ih _ h)
      · rw [dedupByKey, if_neg hm] at h
        rcases List.mem_cons.mp h with rfl | h'
        · exact List.mem_cons_self _ _
        · exact List.mem_cons_of_mem _ (ih _ h')

theorem dedupByKey_nodup :
    ∀ (l : List GrepMatch) (seen),
      ((dedupByKey l seen).map matchKey).Nodup
      ∧ ∀ a ∈ dedupByKey l seen, matchKey a ∉ seen := by
  intro l
  induction l with
  | nil => intro seen; simp [dedupByKey]
  | cons m rest ih =>
      intro seen
      by_cases hm : matchKey m ∈ seen
      · rw [dedupByKey, if_pos hm]
        exact ih seen
      · rw [dedupByKey, if_neg hm]
        obtain ⟨hnd, hout⟩ := ih (matchKey m :: seen)
        refine ⟨List.nodup_cons.mpr ⟨?_, hnd⟩, ?_⟩
        · intro hmem
          rcases List.mem_map.mp hmem with ⟨b, hb, hkb⟩
          exact (hout b hb) (hkb ▸ List.mem_cons_self _ _)
        · intro a ha
          rcases List.mem_cons.mp ha with rfl | ha'
          · exact hm
          · exact fun hseen => (hout a ha') (List.mem_cons_of_mem _ hseen)

theorem dedupByKey_complete {a : GrepMatch} :
    ∀ (l : List GrepMatch) (seen), a ∈ l →
      matchKey a ∈ seen ∨ ∃ b ∈ dedupByKey l seen, matchKey b = matchKey a := by
  intro l
  induction l with
  | nil => intro seen h; simp at h
  | cons m rest ih =>
      intro seen h
      rcases List.mem_cons.mp h with rfl | h'
      · by_cases hm : matchKey a ∈ seen
        · exact Or.inl hm
        · exact Or.inr ⟨a, by rw [dedupByKey, if_neg hm]; exact List.mem_cons_self _ _, rfl⟩
      · by_cases hm : matchKey m ∈ seen
        · rcases ih seen h' with hin | ⟨b, hb, hk⟩
          · exact Or.inl hin
          · exact Or.inr ⟨b, by rw [dedupByKey, if_pos hm]; exact hb, hk⟩
        · rcases ih (matchKey m :: seen) h' with hin | ⟨b, hb, hk⟩
          · rcases List.mem_cons.mp hin with he | hin'
            · exact Or.inr ⟨m, by rw [dedupByKey, if_neg hm]; exact List.mem_cons_self _ _, he.symm⟩
            · exact Or.inl hin'
          · exact Or.inr ⟨b, by rw [dedupByKey, if_neg hm]; exact List.mem_cons_of_mem _ hb, hk⟩

/-- a failed `grep_search` contributes no matches -/
theorem grep_search_success_or_empty (cfg : SecurityConfig) (fs : Fs)
    (pattern directory file_pattern : String) :
    (grep_search cfg fs pattern directory file_pattern).success = true
    ∨ (grep_search cfg fs pattern directory file_pattern).matches' = [] := by
  unfold grep_search
  split <;> simp

/-- C4: `codebase_search` invoked without a supplied glob set (`none`, the
Python default `file_types=None`) greps once per glob of the fixed default
list, and its result is the merge of those grep results deduplicated by
`(file, line number)`, sorted ascending by that key, capped at the output
cap, with the truncation flag set exactly when the deduplicated total
reaches the cap (the same `count ≥ cap` rule `grep_search` uses). -/
theorem codebase_search_default_aggregates (cfg : SecurityConfig) (fs : Fs)
    (query : String) :
    (codebase_search cfg fs query none).file_types = defaultFileTypes
    ∧ (codebase_search cfg fs query none).matches'.Pairwise
        (fun a b => keyLe a b = true)
    ∧ ((codebase_search cfg fs query none).matches'.map matchKey).Nodup
    ∧ (∀ m ∈ (codebase_search cfg fs query none).matches',
        ∃ g ∈ defaultFileTypes,
          (grep_search cfg fs query "." g).success = true
          ∧ m ∈ (grep_search cfg fs query "." g).matches')
    ∧ ((codebase_search cfg fs query none).truncated = false →
        ∀ g ∈ defaultFileTypes,
          ∀ m ∈ (grep_search cfg fs query "." g).matches',
            ∃ m' ∈ (codebase_search cfg fs query none).matches',
              matchKey m' = matchKey m)
    ∧ (codebase_search cfg fs query none).matches'.length ≤ cfg.max_output_lines
    ∧ (codebase_search cfg fs query none).truncated
        = decide ((codebase_search cfg fs query none).total_found
            ≥ cfg.max_output_lines) := by
  have hmatches : (codebase_search cfg fs query none).matches'
      = (sortLe keyLe (dedupByKey (defaultFileTypes.flatMap (fun file_type =>
          if (grep_search cfg fs query "." file_type).success then
            (grep_search cfg fs query "." file_type).matches'
          else [])) [])).take cfg.max_output_lines := rfl
  have htrunc : (codebase_search cfg fs query none).truncated
      = decide ((dedupByKey (defaultFileTypes.flatMap (fun file_type =>
          if (grep_search cfg fs query "." file_type).success then
            (grep_search cfg fs query "." file_type).matches'
          else [])) []).length ≥ cfg.max_output_lines) := rfl
  have htotal : (codebase_search cfg fs query none).total_found
      = (dedupByKey (defaultFileTypes.flatMap (fun file_type =>
          if (grep_search cfg fs query "." file_type).success then
            (grep_search cfg fs query "." file_type).matches'
          else [])) []).length := rfl
  rw [hmatches, htrunc, htotal]
  generalize hall : defaultFileTypes.flatMap (fun file_type =>
      if (grep_search cfg fs query "." file_type).success then
        (grep_search cfg fs query "." file_type).matches'
      else []) = all
  have hperm : (sortLe keyLe (dedupByKey all [])).Perm (dedupByKey all []) :=
    perm_sortLe keyLe (dedupByKey all [])
  refine ⟨rfl, ?_, ?_, ?_, ?_, ?_, rfl⟩
  · exact List.Pairwise.sublist (List.take_sublist _ _)
      (pairwise_sortLe keyLe keyLe_total keyLe_trans _)
  · exact List.Sublist.nodup (List.Sublist.map matchKey (List.take_sublist _ _))
      (((hperm.map matchKey).nodup_iff).mpr (dedupByKey_nodup all []).1)
  · intro m hm
    have hm_all : m ∈ all :=
      mem_dedupByKey all [] (hperm.mem_iff.mp (List.take_subset _ _ hm))
    rw [← hall] at hm_all
    rcases List.mem_flatMap.mp hm_all with ⟨g, hg, hmem⟩
    cases hsucc : (grep_search cfg fs query "." g).success with
    | true => exact ⟨g, hg, hsucc, by rw [hsucc] at hmem; simpa using hmem⟩
    | false => rw [hsucc] at hmem; simp at hmem
  · intro htr g hg m hm
    have hlt : (dedupByKey all []).length < cfg.max_output_lines := by
      by_contra hge
      rw [decide_eq_false_iff_not] at htr
      exact htr (Nat.le_of_not_lt hge)
    have hlen : (sortLe keyLe (dedupByKey all [])).length ≤ cfg.max_output_lines := by
      rw [hperm.length_eq]
      exact Nat.le_of_lt hlt
    rw [List.take_of_length_le hlen]
    have hm_all : m ∈ all := by
      rw [← hall]
      refine List.mem_flatMap.mpr ⟨g, hg, ?_⟩
      rcases grep_search_success_or_empty cfg fs query "." g with hsucc | hempty
      · rw [hsucc]; simpa using hm
      · rw [hempty] at hm; simp at hm
    rcases dedupByKey_complete all [] hm_all with hin | ⟨b, hb, hk⟩
    · simp at hin
    · exact ⟨b, hperm.mem_iff.mpr hb, hk⟩
  · rw [List.length_take]
    exact inf_le_left

/-- a small codebase for the C4 witness: two Python files, one JavaScript
file, one file outside the default extension set -/
def fsSearch : Fs :=
  { cwd := "/w", dirs := ["/w"],
    files := [("/w/a.py", "foo\nbar foo\n"), ("/w/b.js", "x foo\n"),
              ("/w/d.py", "FOO here\n"), ("/w/n.rs", "foo\n")] }

/-- C4 witness: the aggregation statement instantiated at a concrete
codebase and query. -/
theorem codebase_search_default_aggregates_witness :
    (codebase_search cfgDefault fsSearch "foo" none).file_types = defaultFileTypes
    ∧ (codebase_search cfgDefault fsSearch "foo" none).matches'.length
        ≤ cfgDefault.max_output_lines
    ∧ (codebase_search cfgDefault fsSearch "foo" none).truncated
        = decide ((codebase_search cfgDefault fsSearch "foo" none).total_found
            ≥ cfgDefault.max_output_lines) :=
  ⟨(codebase_search_default_aggregates cfgDefault fsSearch "foo").1,
   (codebase_search_default_aggregates cfgDefault fsSearch "foo").2.2.2.2.2.1,
   (codebase_search_default_aggregates cfgDefault fsSearch "foo").2.2.2.2.2.2⟩

end AreebModel
